import Mathlib

/-!
A shallow embedding of the equilibration-initialisation code of
opm/core/simulator/initStateEquil.hpp and of the velocity-formulation
validation of dumux/new_decoupled/2p/diffusion/fv/fvvelocity2p.hh.
Machine doubles are modelled as rationals, so identities the code states
in floating arithmetic are settled here in exact arithmetic.
-/

/-- The three black-oil phases of BlackoilPhases: Aqua (water), Liquid (oil)
and Vapour (gas). -/
inductive BlackoilPhase : Type
  | Aqua : BlackoilPhase
  | Liquid : BlackoilPhase
  | Vapour : BlackoilPhase
  deriving DecidableEq

/-- PhaseUsage: for each phase, whether it is used and its compact position
index (the phase_used and phase_pos arrays of BlackoilPhases). -/
structure PhaseUsage : Type where
  phase_used : BlackoilPhase → Bool
  phase_pos : BlackoilPhase → Nat

/-- EquilRecord: datum depth and pressure, water-oil contact depth and
capillary pressure, gas-oil contact depth and capillary pressure. -/
structure EquilRecord : Type where
  datumDepth : ℚ
  datumPressure : ℚ
  wocDepth : ℚ
  wocPressure : ℚ
  gocDepth : ℚ
  gocPressure : ℚ

/-- EquilReg: the region binding of an equilibration record and the phase
usage; the density calculator and the two mixing policies it also carries in
the code feed only phasePressures, which is kept abstract here. -/
structure EquilReg : Type where
  rec_ : EquilRecord
  pu : PhaseUsage

/-- reg.datum(): depth of the datum. -/
def EquilReg.datum (r : EquilReg) : ℚ := r.rec_.datumDepth

/-- reg.zwoc(): depth of the water-oil contact. -/
def EquilReg.zwoc (r : EquilReg) : ℚ := r.rec_.wocDepth

/-- reg.zgoc(): depth of the gas-oil contact. -/
def EquilReg.zgoc (r : EquilReg) : ℚ := r.rec_.gocDepth

/-- reg.phaseUsage(). -/
def EquilReg.phaseUsage (r : EquilReg) : PhaseUsage := r.pu

/-- A phase-indexed family of per-cell values: the representation of the
std::vector of std::vector of double used for phase pressures and phase
saturations. -/
abbrev PhaseTable : Type := List (List ℚ)

/-- Read entry (p, i) of a phase table (row = phase position p, column =
local cell index i); out-of-range reads default to 0. -/
def mval (m : PhaseTable) (p i : Nat) : ℚ := (m.getD p []).getD i 0

/-- Length of row p of a phase table. -/
def rowLen (m : PhaseTable) (p : Nat) : Nat := (m.getD p []).length

/-- Write value v at entry (p, i) of a phase table: the assignment
phase_saturations[p][i] = v.  Out-of-range writes are dropped. -/
def mset (m : PhaseTable) (p i : Nat) (v : ℚ) : PhaseTable :=
  m.set p ((m.getD p []).set i v)

/-- The slice of BlackoilPropertiesInterface that phaseSaturations consumes.
satRangeMin and satRangeMax are the per-cell, per-phase-position bounds
filled in by props.satRange.  pcRoot and pcSumRoot are the raw roots found
by the capillary-pressure inverter for a single curve and for the summed
gas-oil plus oil-water curve; the property tables behind them are external
collaborators, so the roots are abstract fields. -/
structure Props : Type where
  satRangeMin : Nat → Nat → ℚ
  satRangeMax : Nat → Nat → ℚ
  pcRoot : Nat → Nat → ℚ → Bool → ℚ
  pcSumRoot : Nat → Nat → Nat → ℚ → ℚ

/-- Modelled from the spec: satFromPc lives in
opm/core/simulator/EquilibrationHelpers.hpp, which is missing from this
source tree.  Per section 4.2 of the spec the inverter returns the
saturation at which the capillary-pressure curve of the given phase meets
the target value, the monotonicity direction being a caller-supplied flag,
clamped to the irreducible saturation bounds returned by the property model
for that cell.  The raw root is the abstract Props field pcRoot. -/
def satFromPc (props : Props) (phase cell : Nat) (targetPc : ℚ)
    (increasing : Bool) : ℚ :=
  max (props.satRangeMin cell phase)
    (min (props.satRangeMax cell phase)
      (props.pcRoot phase cell targetPc increasing))

/-- Modelled from the spec: satFromSumOfPcs lives in
opm/core/simulator/EquilibrationHelpers.hpp, which is missing from this
source tree.  Per section 4.2 of the spec it solves, for the water
saturation, the equation stating that the gas-oil capillary pressure at one
minus that saturation plus the oil-water capillary pressure at that
saturation meets the target; the root is bracketed by, hence clamped to,
the water-phase saturation bounds of the cell.  The raw root is the
abstract Props field pcSumRoot. -/
def satFromSumOfPcs (props : Props) (phase1 phase2 cell : Nat)
    (targetPc : ℚ) : ℚ :=
  max (props.satRangeMin cell phase1)
    (min (props.satRangeMax cell phase1)
      (props.pcSumRoot phase1 phase2 cell targetPc))

/-- The local constant water of phaseSaturations:
reg.phaseUsage().phase_used[Aqua]. -/
def waterActive (reg : EquilReg) : Bool :=
  reg.phaseUsage.phase_used BlackoilPhase.Aqua

/-- The local constant gas of phaseSaturations:
reg.phaseUsage().phase_used[Vapour]. -/
def gasActive (reg : EquilReg) : Bool :=
  reg.phaseUsage.phase_used BlackoilPhase.Vapour

/-- The local constant oilpos of phaseSaturations:
reg.phaseUsage().phase_pos[Liquid]. -/
def oilpos (reg : EquilReg) : Nat :=
  reg.phaseUsage.phase_pos BlackoilPhase.Liquid

/-- The local constant waterpos of phaseSaturations:
reg.phaseUsage().phase_pos[Aqua]. -/
def waterpos (reg : EquilReg) : Nat :=
  reg.phaseUsage.phase_pos BlackoilPhase.Aqua

/-- The local constant gaspos of phaseSaturations:
reg.phaseUsage().phase_pos[Vapour]. -/
def gaspos (reg : EquilReg) : Nat :=
  reg.phaseUsage.phase_pos BlackoilPhase.Vapour

/-- The local variable sw after lines 156 to 161 of initStateEquil.hpp:
when water is active, invert the oil-water capillary curve (decreasing
direction, the default flag of satFromPc) at pcov = po - pw; otherwise sw
stays 0. -/
def swInverted (reg : EquilReg) (props : Props) (pp : PhaseTable)
    (cell i : Nat) : ℚ :=
  if waterActive reg then
    satFromPc props (waterpos reg) cell
      (mval pp (oilpos reg) i - mval pp (waterpos reg) i) false
  else 0

/-- The local variable sg after lines 162 to 169 of initStateEquil.hpp:
when gas is active, invert the gas-oil capillary curve (increasing
direction) at pcog = pg - po; otherwise sg stays 0. -/
def sgInverted (reg : EquilReg) (props : Props) (pp : PhaseTable)
    (cell i : Nat) : ℚ :=
  if gasActive reg then
    satFromPc props (gaspos reg) cell
      (mval pp (gaspos reg) i - mval pp (oilpos reg) i) true
  else 0

/-- The recomputed water saturation of the overlap correction (line 176 of
initStateEquil.hpp): invert the summed capillary curves at
pcgw = pg - pw. -/
def swCombined (reg : EquilReg) (props : Props) (pp : PhaseTable)
    (cell i : Nat) : ℚ :=
  satFromSumOfPcs props (waterpos reg) (gaspos reg) cell
    (mval pp (gaspos reg) i - mval pp (waterpos reg) i)

/-- The guard of the overlap correction (line 170 of initStateEquil.hpp):
gas and water and sg + sw > 1. -/
def overlapFires (reg : EquilReg) (props : Props) (pp : PhaseTable)
    (cell i : Nat) : Bool :=
  gasActive reg && waterActive reg &&
    decide (sgInverted reg props pp cell i + swInverted reg props pp cell i > 1)

/-- The (water, gas, oil) saturation triple the loop body of phaseSaturations
computes for the cell at local index i: the independent inversions of lines
156 to 169, the overlap correction of lines 170 to 180, and the closure of
line 181 of initStateEquil.hpp. -/
def cellSats (reg : EquilReg) (props : Props) (pp : PhaseTable)
    (cell i : Nat) : ℚ × ℚ × ℚ :=
  if overlapFires reg props pp cell i then
    let sw2 := swCombined reg props pp cell i
    let sg2 := 1 - sw2
    (sw2, sg2, 1 - sw2 - sg2)
  else
    (swInverted reg props pp cell i, sgInverted reg props pp cell i,
      1 - swInverted reg props pp cell i - sgInverted reg props pp cell i)

/-- One iteration of the cell loop of phaseSaturations (lines 151 to 182 of
initStateEquil.hpp), written as the same sequence of assignments into the
phase_saturations table.  The satRange call of line 153 fills two local
arrays that the function body never reads, so it contributes nothing here. -/
def satCellStep (reg : EquilReg) (props : Props) (pp : PhaseTable)
    (sat : PhaseTable) (cell i : Nat) : PhaseTable :=
  let sw := swInverted reg props pp cell i
  let sat1 := if waterActive reg then mset sat (waterpos reg) i sw else sat
  let sg := sgInverted reg props pp cell i
  let sat2 := if gasActive reg then mset sat1 (gaspos reg) i sg else sat1
  if overlapFires reg props pp cell i then
    let sw2 := swCombined reg props pp cell i
    let sg2 := 1 - sw2
    let sat3 := mset (mset sat2 (waterpos reg) i sw2) (gaspos reg) i sg2
    mset sat3 (oilpos reg) i (1 - sw2 - sg2)
  else
    mset sat2 (oilpos reg) i (1 - sw - sg)

/-- The cell loop of phaseSaturations: cells are visited in order while the
local index counts up from its start value. -/
def satLoop (reg : EquilReg) (props : Props) (pp : PhaseTable) :
    List Nat → Nat → PhaseTable → PhaseTable
  | [], _, sat => sat
  | c :: cs, i, sat =>
      satLoop reg props pp cs (i + 1) (satCellStep reg props pp sat c i)

/-- Opm::Equil::phaseSaturations (initStateEquil.hpp, lines 124 to 184):
validate that the datum lies in the oil zone and that the oil phase is
active, then convert the per-cell phase pressures into saturations by
inverting capillary-pressure curves, starting from a table copied from the
pressures just to get the right size. -/
def phaseSaturations (reg : EquilReg) (cells : List Nat) (props : Props)
    (phase_pressures : PhaseTable) : Except String PhaseTable :=
  if reg.zgoc > reg.datum ∨ reg.datum > reg.zwoc then
    Except.error "Cannot initialise: the datum depth must be in the oil zone."
  else if reg.phaseUsage.phase_used BlackoilPhase.Liquid = false then
    Except.error "Cannot initialise: not handling water-gas cases."
  else
    Except.ok (satLoop reg props phase_pressures cells 0 phase_pressures)

/-- The slice of EclipseGridParser that equilnum consumes: the optional
EQLNUM integer field.  The field is some v exactly when
deck.hasField(EQLNUM) holds, in which case getIntegerValue(EQLNUM)
returns v. -/
structure EclipseGridParser : Type where
  eqlnumField : Option (List Int)

/-- The slice of UnstructuredGrid that this code consumes. -/
structure UnstructuredGrid : Type where
  number_of_cells : Nat

/-- Opm::Equil::DeckDependent::equilnum (initStateEquil.hpp, lines 227 to
243): the EQLNUM field when the deck has one, otherwise every cell in
region zero. -/
def equilnum (deck : EclipseGridParser) (G : UnstructuredGrid) : List Int :=
  match deck.eqlnumField with
  | some v => v
  | none => List.replicate G.number_of_cells 0

/-- A region mapping: the RegionMapping collaborator built from equilnum,
consumed through numRegions and cells only.  Cell indices are global. -/
structure RegionMapping : Type where
  numRegions : Nat
  cells : Nat → List Nat

/-- The inner scatter of calcPressII and calcSat for one phase row: walk the
CellRange and the region-local values in step, writing d[c] = value at each
global cell c of the range. -/
def scatterRow : List ℚ → List Nat → List ℚ → List ℚ
  | row, c :: cs, v :: vs => scatterRow (row.set c v) cs vs
  | row, _, _ => row

/-- The scatter of one region-local result res into the whole-grid table d:
for every phase row p, scatter the row res[p] over the CellRange of the
region (initStateEquil.hpp, lines 305 to 315 and 345 to 366). -/
def scatterAll (d : PhaseTable) (cells : List Nat) (res : PhaseTable) :
    PhaseTable :=
  d.mapIdx fun p row => scatterRow row cells (res.getD p [])

/-- The region loop shared by calcPressII and calcSat: process the listed
regions in order, scattering the region result of resOf into the
accumulating whole-grid table. -/
def foldScatter (cellsOf : Nat → List Nat) (resOf : Nat → PhaseTable) :
    List Nat → PhaseTable → PhaseTable
  | [], d => d
  | r :: rs, d =>
      foldScatter cellsOf resOf rs (scatterAll d (cellsOf r) (resOf r))

/-- PhasePressureSaturationComputer::calcPressII (initStateEquil.hpp, lines
280 to 317): for each region, compute the phase pressures and scatter them
into pp_.  The body of phasePressures lives in initStateEquil_impl.hpp,
which is missing from this source tree, so the per-region pressure result is
the abstract function pressFn; the code calls it with the same region
binding both here and in calcSat, so one function of the region id stands
for both calls. -/
def calcPressII (rmap : RegionMapping) (pressFn : Nat → PhaseTable)
    (pp : PhaseTable) : PhaseTable :=
  foldScatter rmap.cells pressFn (List.range rmap.numRegions) pp

/-- A zero-valued equilibration record, standing for the value an
out-of-range read of the record vector would give. -/
def defaultEquilRecord : EquilRecord := EquilRecord.mk 0 0 0 0 0 0

/-- The region binding built inside calcPressII and calcSat for region r:
rec[r] together with props.phaseUsage(). -/
def regOf (recs : List EquilRecord) (pu : PhaseUsage) (r : Nat) : EquilReg :=
  EquilReg.mk (recs.getD r defaultEquilRecord) pu

/-- The region loop of PhasePressureSaturationComputer::calcSat
(initStateEquil.hpp, lines 319 to 368): for each region, recompute the phase
pressures, compute the saturations from them, scatter the pressures into pp_
again and the saturations into sat_.  A throw from phaseSaturations aborts
the whole pass. -/
def calcSatLoop (rmap : RegionMapping) (recs : List EquilRecord)
    (pu : PhaseUsage) (props : Props) (pressFn : Nat → PhaseTable) :
    List Nat → PhaseTable → PhaseTable → Except String (PhaseTable × PhaseTable)
  | [], pp, sat => Except.ok (pp, sat)
  | r :: rs, pp, sat =>
      let press := pressFn r
      match phaseSaturations (regOf recs pu r) (rmap.cells r) props press with
      | Except.error e => Except.error e
      | Except.ok satr =>
          calcSatLoop rmap recs pu props pressFn rs
            (scatterAll pp (rmap.cells r) press)
            (scatterAll sat (rmap.cells r) satr)

/-- PhasePressureSaturationComputer::calcSat over all regions. -/
def calcSat (rmap : RegionMapping) (recs : List EquilRecord)
    (pu : PhaseUsage) (props : Props) (pressFn : Nat → PhaseTable)
    (pp sat : PhaseTable) : Except String (PhaseTable × PhaseTable) :=
  calcSatLoop rmap recs pu props pressFn (List.range rmap.numRegions) pp sat

/-- A table of numPhases rows of ncells zero-valued entries: the
value-initialised pp_ and sat_ members at entry of the constructor. -/
def zeroTable (np ncells : Nat) : PhaseTable :=
  List.replicate np (List.replicate ncells 0)

/-- The PhasePressureSaturationComputer constructor (initStateEquil.hpp,
lines 251 to 265): pp_ and sat_ start as numPhases rows of
number_of_cells zero-valued entries, then calcPressII runs, then calcSat. -/
def phasePressureSaturationComputer (rmap : RegionMapping)
    (recs : List EquilRecord) (pu : PhaseUsage) (props : Props)
    (pressFn : Nat → PhaseTable) (numPhases ncells : Nat) :
    Except String (PhaseTable × PhaseTable) :=
  calcSat rmap recs pu props pressFn
    (calcPressII rmap pressFn (zeroTable numPhases ncells))
    (zeroTable numPhases ncells)

/-- The closed enumeration of velocity formulations known to FVVelocity2P:
the water, non-wetting and total velocity tags vw, vn and vt of
TwoPCommonIndices, plus the catch-all tag other (the value 999 of the local
enumeration of fvvelocity2p.hh). -/
inductive VelocityFormulation : Type
  | vw : VelocityFormulation
  | vn : VelocityFormulation
  | vt : VelocityFormulation
  | other : VelocityFormulation
  deriving DecidableEq

/-- The validation run by both FVVelocity2P constructors
(fvvelocity2p.hh, lines 101 to 134) on the compile-time constant
velocityType_: throw when compressibility is enabled together with the
total-velocity formulation, then throw when the formulation is the
catch-all tag; otherwise construction succeeds. -/
def fvVelocity2PConstructorCheck (enableCompressibility : Bool)
    (velocityType : VelocityFormulation) : Except String Unit :=
  if enableCompressibility = true ∧ velocityType = VelocityFormulation.vt then
    Except.error
      "Total velocity - global pressure - model cannot be used with compressible fluids!"
  else if velocityType = VelocityFormulation.other then
    Except.error "Velocity type not supported!"
  else
    Except.ok ()

/-- The store-velocities dispatch of calculateVelocity (fvvelocity2p.hh,
lines 569 to 582, the Neumann-boundary instance of the pattern repeated at
lines 343 to 359 and 535 to 551): given the two phase velocities, each
formulation tag selects what is written to the velocity store, and no
branch of the dispatch throws. -/
def storeVelocities (velocityType : VelocityFormulation)
    (velocityW velocityNW : ℚ) (store : ℚ × ℚ) : ℚ × ℚ :=
  let s1 := if velocityType = VelocityFormulation.vw
    then (velocityW, velocityNW) else store
  let s2 := if velocityType = VelocityFormulation.vn
    then (velocityNW, velocityW) else s1
  if velocityType = VelocityFormulation.vt
    then (velocityW + velocityNW, s2.2) else s2

/-! Helper lemmas about list reads and writes. -/

theorem getD_set {α : Type} (l : List α) (i j : Nat) (v d : α) :
    (l.set i v).getD j d = if i = j ∧ i < l.length then v else l.getD j d := by
  induction l generalizing i j with
  | nil => simp
  | cons a t ih =>
    cases i with
    | zero =>
      cases j with
      | zero => simp
      | succ m => simp
    | succ n =>
      cases j with
      | zero => simp
      | succ m =>
        simpa [Nat.succ_lt_succ_iff] using ih n m

theorem mval_mset (m : PhaseTable) (p q i j : Nat) (v : ℚ) :
    mval (mset m p i v) q j =
      if p = q ∧ i = j ∧ p < m.length ∧ i < rowLen m p then v
      else mval m q j := by
  unfold mval mset rowLen
  rw [getD_set]
  by_cases h1 : p = q ∧ p < m.length
  · obtain ⟨hpq, hp⟩ := h1
    subst hpq
    rw [if_pos ⟨rfl, hp⟩, getD_set]
    by_cases h2 : i = j ∧ i < (m.getD p []).length
    · rw [if_pos h2, if_pos ⟨rfl, h2.1, hp, h2.2⟩]
    · rw [if_neg h2, if_neg]
      intro hc
      exact h2 ⟨hc.2.1, hc.2.2.2⟩
  · rw [if_neg h1, if_neg]
    intro hc
    exact h1 ⟨hc.1, hc.2.2.1⟩

theorem mval_mset_self (m : PhaseTable) (p i : Nat) (v : ℚ)
    (h1 : p < m.length) (h2 : i < rowLen m p) :
    mval (mset m p i v) p i = v := by
  rw [mval_mset, if_pos ⟨rfl, rfl, h1, h2⟩]

theorem mval_mset_ne (m : PhaseTable) (p q i j : Nat) (v : ℚ)
    (h : ¬(p = q ∧ i = j)) :
    mval (mset m p i v) q j = mval m q j := by
  rw [mval_mset, if_neg]
  intro hc
  exact h ⟨hc.1, hc.2.1⟩

theorem length_mset (m : PhaseTable) (p i : Nat) (v : ℚ) :
    (mset m p i v).length = m.length := by
  simp [mset]

theorem rowLen_mset (m : PhaseTable) (p q i : Nat) (v : ℚ) :
    rowLen (mset m p i v) q = rowLen m q := by
  unfold rowLen mset
  rw [getD_set]
  by_cases h : p = q ∧ p < m.length
  · obtain ⟨rfl, hp⟩ := h
    simp [hp]
  · rw [if_neg h]

theorem length_msetIte (b : Prop) [Decidable b] (m : PhaseTable)
    (p i : Nat) (v : ℚ) :
    (if b then mset m p i v else m).length = m.length := by
  split <;> simp [length_mset]

theorem rowLen_msetIte (b : Prop) [Decidable b] (m : PhaseTable)
    (p q i : Nat) (v : ℚ) :
    rowLen (if b then mset m p i v else m) q = rowLen m q := by
  split <;> simp [rowLen_mset]

theorem length_satCellStep (reg : EquilReg) (props : Props)
    (pp sat : PhaseTable) (c i : Nat) :
    (satCellStep reg props pp sat c i).length = sat.length := by
  unfold satCellStep
  by_cases h1 : overlapFires reg props pp c i = true <;>
    by_cases h2 : waterActive reg = true <;>
      by_cases h3 : gasActive reg = true <;>
        simp [h1, h2, h3, length_mset]

theorem rowLen_satCellStep (reg : EquilReg) (props : Props)
    (pp sat : PhaseTable) (c i q : Nat) :
    rowLen (satCellStep reg props pp sat c i) q = rowLen sat q := by
  unfold satCellStep
  by_cases h1 : overlapFires reg props pp c i = true <;>
    by_cases h2 : waterActive reg = true <;>
      by_cases h3 : gasActive reg = true <;>
        simp [h1, h2, h3, rowLen_mset]

theorem mval_satCellStep_ne_col (reg : EquilReg) (props : Props)
    (pp sat : PhaseTable) (c i q j : Nat) (hj : j ≠ i) :
    mval (satCellStep reg props pp sat c i) q j = mval sat q j := by
  have hni : ∀ (m : PhaseTable) (p : Nat) (v : ℚ),
      mval (mset m p i v) q j = mval m q j := by
    intro m p v
    refine mval_mset_ne m p q i j v ?_
    rintro ⟨-, hij⟩
    exact hj hij.symm
  unfold satCellStep
  by_cases h1 : overlapFires reg props pp c i = true <;>
    by_cases h2 : waterActive reg = true <;>
      by_cases h3 : gasActive reg = true <;>
        simp [h1, h2, h3, hni]

theorem mval_satCellStep_oil (reg : EquilReg) (props : Props)
    (pp sat : PhaseTable) (c i : Nat)
    (h1 : oilpos reg < sat.length) (h2 : i < rowLen sat (oilpos reg)) :
    mval (satCellStep reg props pp sat c i) (oilpos reg) i =
      (cellSats reg props pp c i).2.2 := by
  by_cases hov : overlapFires reg props pp c i = true <;>
    by_cases hw : waterActive reg = true <;>
      by_cases hg : gasActive reg = true <;>
        simp [satCellStep, cellSats, hov, hw, hg, mval_mset, length_mset,
          rowLen_mset, h1, h2]

theorem mval_satCellStep_water (reg : EquilReg) (props : Props)
    (pp sat : PhaseTable) (c i : Nat)
    (hw : waterActive reg = true)
    (hwo : waterpos reg ≠ oilpos reg)
    (hwg : gasActive reg = true → waterpos reg ≠ gaspos reg)
    (h1 : waterpos reg < sat.length) (h2 : i < rowLen sat (waterpos reg)) :
    mval (satCellStep reg props pp sat c i) (waterpos reg) i =
      (cellSats reg props pp c i).1 := by
  by_cases hg : gasActive reg = true
  · have hne := hwg hg
    by_cases hov : overlapFires reg props pp c i = true
    · simp [satCellStep, cellSats, hov, hw, hg, mval_mset, length_mset,
        rowLen_mset, h1, h2, hwo.symm, hne.symm]
    · simp [satCellStep, cellSats, hov, hw, hg, mval_mset, length_mset,
        rowLen_mset, h1, h2, hwo.symm, hne.symm]
  · have hov : overlapFires reg props pp c i = false := by
      simp [overlapFires, hg]
    simp [satCellStep, cellSats, hov, hw, hg, mval_mset, length_mset,
      rowLen_mset, h1, h2, hwo.symm]

theorem mval_satCellStep_gas (reg : EquilReg) (props : Props)
    (pp sat : PhaseTable) (c i : Nat)
    (hg : gasActive reg = true)
    (hgo : gaspos reg ≠ oilpos reg)
    (h1 : gaspos reg < sat.length) (h2 : i < rowLen sat (gaspos reg)) :
    mval (satCellStep reg props pp sat c i) (gaspos reg) i =
      (cellSats reg props pp c i).2.1 := by
  by_cases hw : waterActive reg = true
  · by_cases hov : overlapFires reg props pp c i = true
    · simp [satCellStep, cellSats, hov, hw, hg, mval_mset, length_mset,
        rowLen_mset, h1, h2, hgo.symm]
    · simp [satCellStep, cellSats, hov, hw, hg, mval_mset, length_mset,
        rowLen_mset, h1, h2, hgo.symm]
  · have hov : overlapFires reg props pp c i = false := by
      simp [overlapFires, hw]
    simp [satCellStep, cellSats, hov, hw, hg, mval_mset, length_mset,
      rowLen_mset, h1, h2, hgo.symm]

theorem length_satLoop (reg : EquilReg) (props : Props) (pp : PhaseTable)
    (cs : List Nat) (i0 : Nat) (sat : PhaseTable) :
    (satLoop reg props pp cs i0 sat).length = sat.length := by
  induction cs generalizing i0 sat with
  | nil => rfl
  | cons c cs ih => simp [satLoop, ih, length_satCellStep]

theorem rowLen_satLoop (reg : EquilReg) (props : Props) (pp : PhaseTable)
    (cs : List Nat) (i0 : Nat) (sat : PhaseTable) (q : Nat) :
    rowLen (satLoop reg props pp cs i0 sat) q = rowLen sat q := by
  induction cs generalizing i0 sat with
  | nil => rfl
  | cons c cs ih => simp [satLoop, ih, rowLen_satCellStep]

theorem mval_satLoop_lt (reg : EquilReg) (props : Props) (pp : PhaseTable)
    (cs : List Nat) (i0 : Nat) (sat : PhaseTable) (q j : Nat) (hj : j < i0) :
    mval (satLoop reg props pp cs i0 sat) q j = mval sat q j := by
  induction cs generalizing i0 sat with
  | nil => rfl
  | cons c cs ih =>
    simp only [satLoop]
    rw [ih (i0 + 1) _ (Nat.lt_succ_of_lt hj)]
    exact mval_satCellStep_ne_col reg props pp sat c i0 q j (Nat.ne_of_lt hj)

theorem satLoop_reads (reg : EquilReg) (props : Props) (pp : PhaseTable)
    (hwo : waterActive reg = true → waterpos reg ≠ oilpos reg)
    (hgo : gasActive reg = true → gaspos reg ≠ oilpos reg)
    (hwg : waterActive reg = true → gasActive reg = true →
      waterpos reg ≠ gaspos reg)
    (cs : List Nat) :
    ∀ (i0 : Nat) (sat : PhaseTable),
      oilpos reg < sat.length →
      i0 + cs.length ≤ rowLen sat (oilpos reg) →
      (waterActive reg = true → waterpos reg < sat.length) →
      (waterActive reg = true → i0 + cs.length ≤ rowLen sat (waterpos reg)) →
      (gasActive reg = true → gaspos reg < sat.length) →
      (gasActive reg = true → i0 + cs.length ≤ rowLen sat (gaspos reg)) →
      ∀ j, j < cs.length →
      mval (satLoop reg props pp cs i0 sat) (oilpos reg) (i0 + j) =
          (cellSats reg props pp (cs.getD j 0) (i0 + j)).2.2 ∧
        (waterActive reg = true →
          mval (satLoop reg props pp cs i0 sat) (waterpos reg) (i0 + j) =
            (cellSats reg props pp (cs.getD j 0) (i0 + j)).1) ∧
        (gasActive reg = true →
          mval (satLoop reg props pp cs i0 sat) (gaspos reg) (i0 + j) =
            (cellSats reg props pp (cs.getD j 0) (i0 + j)).2.1) := by
  induction cs with
  | nil =>
    intro i0 sat _ _ _ _ _ _ j hj
    exact absurd hj (by simp)
  | cons c cs ih =>
    intro i0 sat hoL hoR hwL hwR hgL hgR j hj
    cases j with
    | zero =>
      simp only [satLoop, Nat.add_zero, List.getD_cons_zero]
      have hstep := fun q => mval_satLoop_lt reg props pp cs (i0 + 1)
        (satCellStep reg props pp sat c i0) q i0 (Nat.lt_succ_self i0)
      refine ⟨?_, ?_, ?_⟩
      · rw [hstep, mval_satCellStep_oil reg props pp sat c i0 hoL
          (by simp only [List.length_cons] at hoR; omega)]
      · intro hw
        rw [hstep, mval_satCellStep_water reg props pp sat c i0 hw (hwo hw)
          (fun hg => hwg hw hg) (hwL hw)
          (by have := hwR hw; simp only [List.length_cons] at this; omega)]
      · intro hg
        rw [hstep, mval_satCellStep_gas reg props pp sat c i0 hg (hgo hg)
          (hgL hg)
          (by have := hgR hg; simp only [List.length_cons] at this; omega)]
    | succ k =>
      simp only [satLoop, List.getD_cons_succ]
      have harith : i0 + (k + 1) = (i0 + 1) + k := by omega
      rw [harith]
      refine ih (i0 + 1) (satCellStep reg props pp sat c i0) ?_ ?_ ?_ ?_ ?_ ?_
        k (by simp only [List.length_cons] at hj; omega)
      · rw [length_satCellStep]
        exact hoL
      · rw [rowLen_satCellStep]
        simp only [List.length_cons] at hoR
        omega
      · intro hw
        rw [length_satCellStep]
        exact hwL hw
      · intro hw
        rw [rowLen_satCellStep]
        have := hwR hw
        simp only [List.length_cons] at this
        omega
      · intro hg
        rw [length_satCellStep]
        exact hgL hg
      · intro hg
        rw [rowLen_satCellStep]
        have := hgR hg
        simp only [List.length_cons] at this
        omega

theorem phaseSaturations_ok_val (reg : EquilReg) (cells : List Nat)
    (props : Props) (pp out : PhaseTable)
    (h : phaseSaturations reg cells props pp = Except.ok out) :
    out = satLoop reg props pp cells 0 pp := by
  unfold phaseSaturations at h
  split at h
  · cases h
  · split at h
    · cases h
    · cases h
      rfl

theorem phaseSaturations_ok_pre (reg : EquilReg) (cells : List Nat)
    (props : Props) (pp out : PhaseTable)
    (h : phaseSaturations reg cells props pp = Except.ok out) :
    reg.zgoc ≤ reg.datum ∧ reg.datum ≤ reg.zwoc ∧
      reg.phaseUsage.phase_used BlackoilPhase.Liquid = true := by
  unfold phaseSaturations at h
  split at h
  · cases h
  · rename_i hz
    split at h
    · cases h
    · rename_i ho
      push_neg at hz
      refine ⟨hz.1, hz.2, ?_⟩
      simpa using ho

/-- Well-formedness of the inputs of phaseSaturations: the active-phase
positions are pairwise distinct rows of the table, and the pressure table
has a row with at least one entry per cell for the oil position and for the
positions of the active phases. -/
structure SatShape (reg : EquilReg) (cells : List Nat) (pp : PhaseTable) :
    Prop where
  hwo : waterActive reg = true → waterpos reg ≠ oilpos reg
  hgo : gasActive reg = true → gaspos reg ≠ oilpos reg
  hwg : waterActive reg = true → gasActive reg = true →
    waterpos reg ≠ gaspos reg
  hoL : oilpos reg < pp.length
  hoR : cells.length ≤ rowLen pp (oilpos reg)
  hwL : waterActive reg = true → waterpos reg < pp.length
  hwR : waterActive reg = true → cells.length ≤ rowLen pp (waterpos reg)
  hgL : gasActive reg = true → gaspos reg < pp.length
  hgR : gasActive reg = true → cells.length ≤ rowLen pp (gaspos reg)

theorem phaseSaturations_reads (reg : EquilReg) (cells : List Nat)
    (props : Props) (pp out : PhaseTable)
    (h : phaseSaturations reg cells props pp = Except.ok out)
    (hs : SatShape reg cells pp) (j : Nat) (hj : j < cells.length) :
    mval out (oilpos reg) j =
        (cellSats reg props pp (cells.getD j 0) j).2.2 ∧
      (waterActive reg = true →
        mval out (waterpos reg) j =
          (cellSats reg props pp (cells.getD j 0) j).1) ∧
      (gasActive reg = true →
        mval out (gaspos reg) j =
          (cellSats reg props pp (cells.getD j 0) j).2.1) := by
  obtain rfl := phaseSaturations_ok_val reg cells props pp out h
  have hr := satLoop_reads reg props pp hs.hwo hs.hgo hs.hwg cells 0 pp
    hs.hoL (by simpa using hs.hoR)
    hs.hwL (fun hw => by simpa using hs.hwR hw)
    hs.hgL (fun hg => by simpa using hs.hgR hg) j hj
  simpa using hr

/-! Concrete instances used by witnesses and counterexamples. -/

/-- A phase usage with all three phases active at positions water 0,
oil 1, gas 2. -/
def puAll : PhaseUsage :=
  PhaseUsage.mk (fun _ => true)
    (fun ph =>
      match ph with
      | BlackoilPhase.Aqua => 0
      | BlackoilPhase.Liquid => 1
      | BlackoilPhase.Vapour => 2)

/-- A phase usage with only the oil phase active, at position 0. -/
def puOilOnly : PhaseUsage :=
  PhaseUsage.mk
    (fun ph =>
      match ph with
      | BlackoilPhase.Liquid => true
      | _ => false)
    (fun _ => 0)

/-- A record whose datum depth 0 lies between the gas-oil contact at depth
-1 and the water-oil contact at depth 1. -/
def recMid : EquilRecord := EquilRecord.mk 0 100 1 0 (-1) 0

/-- A record whose datum depth 5 lies below the water-oil contact at
depth 1. -/
def recBad : EquilRecord := EquilRecord.mk 5 100 1 0 (-1) 0

/-- Three-phase region with a valid record. -/
def regAll : EquilReg := EquilReg.mk recMid puAll

/-- Oil-only region with a valid record. -/
def regOil : EquilReg := EquilReg.mk recMid puOilOnly

/-- Property model with full saturation ranges and mild inversion roots:
every single-curve root is one quarter, the combined root one half. -/
def propsMild : Props :=
  Props.mk (fun _ _ => 0) (fun _ _ => 1)
    (fun _ _ _ _ => 1/4) (fun _ _ _ _ => 1/2)

/-- Property model that drives the overlap correction: each single-curve
root is nine tenths, so the inverted water and gas saturations sum to
nine fifths; the combined root is one half; the oil saturation range has
lower bound three tenths. -/
def propsHot : Props :=
  Props.mk (fun _ p => if p = 1 then 3/10 else 0) (fun _ _ => 1)
    (fun _ _ _ _ => 9/10) (fun _ _ _ _ => 1/2)

/-- One-cell pressure table for three active phases, all pressures zero. -/
def ppThree : PhaseTable := [[0], [0], [0]]

/-- One-cell pressure table for a single active phase. -/
def ppOne : PhaseTable := [[0]]

/-- The saturation table of the mild three-phase scenario. -/
def satMild : PhaseTable := [[1/4], [1/2], [1/4]]

/-- The saturation table of the overlap scenario. -/
def satHot : PhaseTable := [[1/2], [0], [1/2]]

theorem evalMild :
    phaseSaturations regAll [0] propsMild ppThree = Except.ok satMild := by
  norm_num [phaseSaturations, satLoop, satCellStep, swInverted, sgInverted,
    swCombined, overlapFires, satFromPc, satFromSumOfPcs, mval, mset, rowLen,
    waterActive, gasActive, oilpos, waterpos, gaspos, EquilReg.datum,
    EquilReg.zwoc, EquilReg.zgoc, EquilReg.phaseUsage, regAll, puAll, recMid,
    propsMild, ppThree, satMild, List.getD]

theorem evalHot :
    phaseSaturations regAll [0] propsHot ppThree = Except.ok satHot := by
  norm_num [phaseSaturations, satLoop, satCellStep, swInverted, sgInverted,
    swCombined, overlapFires, satFromPc, satFromSumOfPcs, mval, mset, rowLen,
    waterActive, gasActive, oilpos, waterpos, gaspos, EquilReg.datum,
    EquilReg.zwoc, EquilReg.zgoc, EquilReg.phaseUsage, regAll, puAll, recMid,
    propsHot, ppThree, satHot, List.getD]

theorem evalOil :
    phaseSaturations regOil [0] propsMild ppOne = Except.ok [[1]] := by
  norm_num [phaseSaturations, satLoop, satCellStep, swInverted, sgInverted,
    swCombined, overlapFires, satFromPc, satFromSumOfPcs, mval, mset, rowLen,
    waterActive, gasActive, oilpos, waterpos, gaspos, EquilReg.datum,
    EquilReg.zwoc, EquilReg.zgoc, EquilReg.phaseUsage, regOil, puOilOnly,
    recMid, propsMild, ppOne, List.getD]

/-- C1: for every region whose preconditions pass, so that phaseSaturations
returns normally, and for every cell of the CellRange, the returned
saturations sum to one exactly: the oil saturation is assigned as one minus
water minus gas after the water and gas saturations are fixed, never by
inverting a capillary curve, so the sum over the active phases (with zero
for an inactive phase) is exactly one. -/
theorem c1_saturations_sum_to_one (reg : EquilReg) (cells : List Nat)
    (props : Props) (pp out : PhaseTable)
    (h : phaseSaturations reg cells props pp = Except.ok out)
    (hs : SatShape reg cells pp) (j : Nat) (hj : j < cells.length) :
    (if waterActive reg then mval out (waterpos reg) j else 0) +
      (if gasActive reg then mval out (gaspos reg) j else 0) +
      mval out (oilpos reg) j = 1 := by
  obtain ⟨ho, hw, hg⟩ := phaseSaturations_reads reg cells props pp out h hs j hj
  by_cases hwa : waterActive reg = true <;>
    by_cases hga : gasActive reg = true
  · rw [if_pos hwa, if_pos hga, hw hwa, hg hga, ho]
    unfold cellSats
    split <;> ring
  · have hov : overlapFires reg props pp (cells.getD j 0) j = false := by
      simp [overlapFires, hga]
    rw [if_pos hwa, if_neg hga, hw hwa, ho]
    simp only [cellSats, hov, Bool.false_eq_true, if_false]
    simp [sgInverted, hga]
  · have hov : overlapFires reg props pp (cells.getD j 0) j = false := by
      simp [overlapFires, hwa]
    rw [if_neg hwa, if_pos hga, hg hga, ho]
    simp only [cellSats, hov, Bool.false_eq_true, if_false]
    simp [swInverted, hwa]
  · have hov : overlapFires reg props pp (cells.getD j 0) j = false := by
      simp [overlapFires, hwa]
    rw [if_neg hwa, if_neg hga, ho]
    simp only [cellSats, hov, Bool.false_eq_true, if_false]
    simp [swInverted, sgInverted, hwa, hga]

/-- Witness for C1: the mild three-phase one-cell scenario. -/
theorem c1_witness :
    (if waterActive regAll then mval satMild (waterpos regAll) 0 else 0) +
      (if gasActive regAll then mval satMild (gaspos regAll) 0 else 0) +
      mval satMild (oilpos regAll) 0 = 1 :=
  c1_saturations_sum_to_one regAll [0] propsMild ppThree satMild evalMild
    (by constructor <;> decide) 0 (by decide)

/-- C4: phaseSaturations throws, before any per-cell work, exactly when the
record violates gas-oil contact depth at most datum depth at most water-oil
contact depth, or when the oil phase is inactive; under the two
preconditions neither check fires and the function returns a result. -/
theorem c4_precondition_checks (reg : EquilReg) (cells : List Nat)
    (props : Props) (pp : PhaseTable) :
    (∃ out, phaseSaturations reg cells props pp = Except.ok out) ↔
      (reg.zgoc ≤ reg.datum ∧ reg.datum ≤ reg.zwoc ∧
        reg.phaseUsage.phase_used BlackoilPhase.Liquid = true) := by
  constructor
  · rintro ⟨out, h⟩
    exact phaseSaturations_ok_pre reg cells props pp out h
  · rintro ⟨h1, h2, h3⟩
    refine ⟨satLoop reg props pp cells 0 pp, ?_⟩
    unfold phaseSaturations
    rw [if_neg (by rw [not_or]; exact ⟨not_lt.mpr h1, not_lt.mpr h2⟩),
      if_neg (by simp [h3])]

/-- C7: in a region where neither water nor gas is active but the
preconditions hold, phaseSaturations raises no error and assigns oil
saturation exactly one in every cell. -/
theorem c7_pure_oil_region (reg : EquilReg) (cells : List Nat)
    (props : Props) (pp : PhaseTable)
    (hz1 : reg.zgoc ≤ reg.datum) (hz2 : reg.datum ≤ reg.zwoc)
    (hoil : reg.phaseUsage.phase_used BlackoilPhase.Liquid = true)
    (hwa : waterActive reg = false) (hga : gasActive reg = false)
    (hs : SatShape reg cells pp) :
    ∃ out, phaseSaturations reg cells props pp = Except.ok out ∧
      ∀ j, j < cells.length → mval out (oilpos reg) j = 1 := by
  have hok : phaseSaturations reg cells props pp =
      Except.ok (satLoop reg props pp cells 0 pp) := by
    unfold phaseSaturations
    rw [if_neg (by rw [not_or]; exact ⟨not_lt.mpr hz1, not_lt.mpr hz2⟩),
      if_neg (by simp [hoil])]
  refine ⟨_, hok, ?_⟩
  intro j hj
  obtain ⟨ho, -, -⟩ := phaseSaturations_reads reg cells props pp _ hok hs j hj
  rw [ho]
  have hov : overlapFires reg props pp (cells.getD j 0) j = false := by
    simp [overlapFires, hga]
  simp only [cellSats, hov, Bool.false_eq_true, if_false]
  simp [swInverted, sgInverted, hwa, hga]

/-- Witness for C7: the oil-only one-cell region. -/
theorem c7_witness :
    ∃ out, phaseSaturations regOil [0] propsMild ppOne = Except.ok out ∧
      ∀ j, j < ([0] : List Nat).length → mval out (oilpos regOil) j = 1 :=
  c7_pure_oil_region regOil [0] propsMild ppOne (by decide) (by decide)
    (by decide) (by decide) (by decide) (by constructor <;> decide)

/-- C5: in a cell where the overlap correction does not fire, the stored
water saturation is the inversion of the water-oil curve in the decreasing
direction at the target po minus pw, and the stored gas saturation is the
inversion of the gas-oil curve in the increasing direction at the target pg
minus po, both read at the local index of the cell. -/
theorem c5_inversion_targets (reg : EquilReg) (cells : List Nat)
    (props : Props) (pp out : PhaseTable)
    (h : phaseSaturations reg cells props pp = Except.ok out)
    (hs : SatShape reg cells pp) (j : Nat) (hj : j < cells.length)
    (hov : overlapFires reg props pp (cells.getD j 0) j = false) :
    (waterActive reg = true →
      mval out (waterpos reg) j =
        satFromPc props (waterpos reg) (cells.getD j 0)
          (mval pp (oilpos reg) j - mval pp (waterpos reg) j) false) ∧
      (gasActive reg = true →
        mval out (gaspos reg) j =
          satFromPc props (gaspos reg) (cells.getD j 0)
            (mval pp (gaspos reg) j - mval pp (oilpos reg) j) true) := by
  obtain ⟨-, hw, hg⟩ := phaseSaturations_reads reg cells props pp out h hs j hj
  constructor
  · intro hwa
    rw [hw hwa]
    simp only [cellSats, hov, Bool.false_eq_true, if_false]
    simp [swInverted, hwa]
  · intro hga
    rw [hg hga]
    simp only [cellSats, hov, Bool.false_eq_true, if_false]
    simp [sgInverted, hga]

/-- Witness for C5: the mild three-phase one-cell scenario, where the
overlap guard is quiet. -/
theorem c5_witness :
    (waterActive regAll = true →
      mval satMild (waterpos regAll) 0 =
        satFromPc propsMild (waterpos regAll) (([0] : List Nat).getD 0 0)
          (mval ppThree (oilpos regAll) 0 - mval ppThree (waterpos regAll) 0)
          false) ∧
      (gasActive regAll = true →
        mval satMild (gaspos regAll) 0 =
          satFromPc propsMild (gaspos regAll) (([0] : List Nat).getD 0 0)
            (mval ppThree (gaspos regAll) 0 - mval ppThree (oilpos regAll) 0)
            true) :=
  c5_inversion_targets regAll [0] propsMild ppThree satMild evalMild
    (by constructor <;> decide) 0 (by decide)
    (by norm_num [overlapFires, swInverted, sgInverted, satFromPc, mval,
      waterActive, gasActive, oilpos, waterpos, gaspos, EquilReg.phaseUsage,
      regAll, puAll, propsMild, ppThree, List.getD])


theorem overlapFires_eq_true (reg : EquilReg) (props : Props)
    (pp : PhaseTable) (cell i : Nat) :
    overlapFires reg props pp cell i = true ↔
      gasActive reg = true ∧ waterActive reg = true ∧
        sgInverted reg props pp cell i + swInverted reg props pp cell i > 1 := by
  simp [overlapFires, and_assoc]

theorem overlapFires_eq_false (reg : EquilReg) (props : Props)
    (pp : PhaseTable) (cell i : Nat) :
    overlapFires reg props pp cell i = false ↔
      ¬(gasActive reg = true ∧ waterActive reg = true ∧
        sgInverted reg props pp cell i + swInverted reg props pp cell i > 1) := by
  rw [← overlapFires_eq_true reg props pp cell i]
  cases overlapFires reg props pp cell i <;> simp

theorem cellSats_overlap (reg : EquilReg) (props : Props) (pp : PhaseTable)
    (cell i : Nat) (hov : overlapFires reg props pp cell i = true) :
    cellSats reg props pp cell i =
      (swCombined reg props pp cell i, 1 - swCombined reg props pp cell i,
        1 - swCombined reg props pp cell i -
          (1 - swCombined reg props pp cell i)) := by
  unfold cellSats
  rw [hov]
  simp

theorem cellSats_nonoverlap (reg : EquilReg) (props : Props)
    (pp : PhaseTable) (cell i : Nat)
    (hov : overlapFires reg props pp cell i = false) :
    cellSats reg props pp cell i =
      (swInverted reg props pp cell i, sgInverted reg props pp cell i,
        1 - swInverted reg props pp cell i - sgInverted reg props pp cell i) := by
  unfold cellSats
  rw [hov]
  simp

/-- C2: with water and gas both active, the overlap correction runs exactly
when the independently inverted saturations sum strictly above one; when it
runs, the stored water saturation is the inversion of the summed capillary
curves at the target pg minus pw, the stored gas saturation is one minus
that water saturation, their sum is exactly one and the closure oil
saturation is exactly zero; when it does not run, the independent
inversions are stored unchanged. -/
theorem c2_overlap_correction (reg : EquilReg) (cells : List Nat)
    (props : Props) (pp out : PhaseTable)
    (h : phaseSaturations reg cells props pp = Except.ok out)
    (hs : SatShape reg cells pp)
    (hwa : waterActive reg = true) (hga : gasActive reg = true)
    (j : Nat) (hj : j < cells.length) :
    (sgInverted reg props pp (cells.getD j 0) j +
        swInverted reg props pp (cells.getD j 0) j > 1 →
      mval out (waterpos reg) j =
          satFromSumOfPcs props (waterpos reg) (gaspos reg) (cells.getD j 0)
            (mval pp (gaspos reg) j - mval pp (waterpos reg) j) ∧
        mval out (gaspos reg) j = 1 - mval out (waterpos reg) j ∧
        mval out (waterpos reg) j + mval out (gaspos reg) j = 1 ∧
        mval out (oilpos reg) j = 0) ∧
      (¬(sgInverted reg props pp (cells.getD j 0) j +
          swInverted reg props pp (cells.getD j 0) j > 1) →
        mval out (waterpos reg) j =
            swInverted reg props pp (cells.getD j 0) j ∧
          mval out (gaspos reg) j =
            sgInverted reg props pp (cells.getD j 0) j) := by
  obtain ⟨ho, hw, hg⟩ := phaseSaturations_reads reg cells props pp out h hs j hj
  constructor
  · intro hgt
    have hov : overlapFires reg props pp (cells.getD j 0) j = true :=
      (overlapFires_eq_true reg props pp (cells.getD j 0) j).mpr ⟨hga, hwa, hgt⟩
    have hwv : mval out (waterpos reg) j =
        swCombined reg props pp (cells.getD j 0) j := by
      rw [hw hwa, cellSats_overlap reg props pp (cells.getD j 0) j hov]
    have hgv : mval out (gaspos reg) j =
        1 - swCombined reg props pp (cells.getD j 0) j := by
      rw [hg hga, cellSats_overlap reg props pp (cells.getD j 0) j hov]
    have hov2 : mval out (oilpos reg) j =
        1 - swCombined reg props pp (cells.getD j 0) j -
          (1 - swCombined reg props pp (cells.getD j 0) j) := by
      rw [ho, cellSats_overlap reg props pp (cells.getD j 0) j hov]
    refine ⟨?_, ?_, ?_, ?_⟩
    · rw [hwv]
      rfl
    · rw [hgv, hwv]
    · rw [hgv, hwv]
      ring
    · rw [hov2]
      ring
  · intro hle
    have hov : overlapFires reg props pp (cells.getD j 0) j = false :=
      (overlapFires_eq_false reg props pp (cells.getD j 0) j).mpr
        (fun hcon => hle hcon.2.2)
    constructor
    · rw [hw hwa, cellSats_nonoverlap reg props pp (cells.getD j 0) j hov]
    · rw [hg hga, cellSats_nonoverlap reg props pp (cells.getD j 0) j hov]

/-- Witness for C2: the overlap one-cell scenario, where the inverted
saturations sum to nine fifths. -/
theorem c2_witness :
    (sgInverted regAll propsHot ppThree (([0] : List Nat).getD 0 0) 0 +
        swInverted regAll propsHot ppThree (([0] : List Nat).getD 0 0) 0 > 1 →
      mval satHot (waterpos regAll) 0 =
          satFromSumOfPcs propsHot (waterpos regAll) (gaspos regAll)
            (([0] : List Nat).getD 0 0)
            (mval ppThree (gaspos regAll) 0 -
              mval ppThree (waterpos regAll) 0) ∧
        mval satHot (gaspos regAll) 0 = 1 - mval satHot (waterpos regAll) 0 ∧
        mval satHot (waterpos regAll) 0 + mval satHot (gaspos regAll) 0 = 1 ∧
        mval satHot (oilpos regAll) 0 = 0) ∧
      (¬(sgInverted regAll propsHot ppThree (([0] : List Nat).getD 0 0) 0 +
          swInverted regAll propsHot ppThree (([0] : List Nat).getD 0 0) 0 > 1) →
        mval satHot (waterpos regAll) 0 =
            swInverted regAll propsHot ppThree (([0] : List Nat).getD 0 0) 0 ∧
          mval satHot (gaspos regAll) 0 =
            sgInverted regAll propsHot ppThree (([0] : List Nat).getD 0 0) 0) :=
  c2_overlap_correction regAll [0] propsHot ppThree satHot evalHot
    (by constructor <;> decide) (by decide) (by decide) 0 (by decide)

theorem satFromPc_le_one (props : Props) (phase cell : Nat) (t : ℚ)
    (inc : Bool) (h1 : props.satRangeMin cell phase ≤ 1)
    (h2 : props.satRangeMax cell phase ≤ 1) :
    satFromPc props phase cell t inc ≤ 1 := by
  unfold satFromPc
  exact max_le h1 (le_trans (min_le_left _ _) h2)

/-- C9: whenever phaseSaturations returns normally and the property model
reports physically meaningful saturation bounds (at most one) for the
active water and gas phases, the closure oil saturation of every cell is
nonnegative: either the overlap correction fired and the oil saturation is
exactly zero, or the guard was quiet and the closure value is nonnegative;
no clamp of the oil value is applied anywhere. -/
theorem c9_oil_saturation_nonneg (reg : EquilReg) (cells : List Nat)
    (props : Props) (pp out : PhaseTable)
    (h : phaseSaturations reg cells props pp = Except.ok out)
    (hs : SatShape reg cells pp)
    (hwb : waterActive reg = true → ∀ c ∈ cells,
      props.satRangeMin c (waterpos reg) ≤ 1 ∧
        props.satRangeMax c (waterpos reg) ≤ 1)
    (hgb : gasActive reg = true → ∀ c ∈ cells,
      props.satRangeMin c (gaspos reg) ≤ 1 ∧
        props.satRangeMax c (gaspos reg) ≤ 1)
    (j : Nat) (hj : j < cells.length) :
    0 ≤ mval out (oilpos reg) j ∧
      (overlapFires reg props pp (cells.getD j 0) j = true →
        mval out (oilpos reg) j = 0) := by
  obtain ⟨ho, -, -⟩ := phaseSaturations_reads reg cells props pp out h hs j hj
  have hc : cells.getD j 0 ∈ cells := by
    rw [List.getD_eq_getElem cells 0 hj]
    exact List.getElem_mem hj
  by_cases hov : overlapFires reg props pp (cells.getD j 0) j = true
  · have hoz : mval out (oilpos reg) j = 0 := by
      rw [ho, cellSats_overlap reg props pp (cells.getD j 0) j hov]
      ring
    exact ⟨by rw [hoz], fun _ => hoz⟩
  · have hovf : overlapFires reg props pp (cells.getD j 0) j = false := by
      simpa using hov
    have hval : mval out (oilpos reg) j =
        1 - swInverted reg props pp (cells.getD j 0) j -
          sgInverted reg props pp (cells.getD j 0) j := by
      rw [ho, cellSats_nonoverlap reg props pp (cells.getD j 0) j hovf]
    refine ⟨?_, fun hcon => absurd hcon hov⟩
    rw [hval]
    by_cases hwa : waterActive reg = true <;>
      by_cases hga : gasActive reg = true
    · have hsum := (overlapFires_eq_false reg props pp
        (cells.getD j 0) j).mp hovf
      have hle : ¬(sgInverted reg props pp (cells.getD j 0) j +
          swInverted reg props pp (cells.getD j 0) j > 1) :=
        fun hgt => hsum ⟨hga, hwa, hgt⟩
      linarith [not_lt.mp hle]
    · have hsw : swInverted reg props pp (cells.getD j 0) j ≤ 1 := by
        rw [swInverted, if_pos hwa]
        exact satFromPc_le_one props (waterpos reg) (cells.getD j 0) _ false
          (hwb hwa _ hc).1 (hwb hwa _ hc).2
      have hsg : sgInverted reg props pp (cells.getD j 0) j = 0 := by
        simp [sgInverted, hga]
      rw [hsg]
      linarith
    · have hsg : sgInverted reg props pp (cells.getD j 0) j ≤ 1 := by
        rw [sgInverted, if_pos hga]
        exact satFromPc_le_one props (gaspos reg) (cells.getD j 0) _ true
          (hgb hga _ hc).1 (hgb hga _ hc).2
      have hsw : swInverted reg props pp (cells.getD j 0) j = 0 := by
        simp [swInverted, hwa]
      rw [hsw]
      linarith
    · have hsw : swInverted reg props pp (cells.getD j 0) j = 0 := by
        simp [swInverted, hwa]
      have hsg : sgInverted reg props pp (cells.getD j 0) j = 0 := by
        simp [swInverted, sgInverted, hga]
      rw [hsw, hsg]
      norm_num

/-- Witness for C9: the mild three-phase one-cell scenario. -/
theorem c9_witness :
    0 ≤ mval satMild (oilpos regAll) 0 ∧
      (overlapFires regAll propsMild ppThree (([0] : List Nat).getD 0 0) 0 =
          true →
        mval satMild (oilpos regAll) 0 = 0) :=
  c9_oil_saturation_nonneg regAll [0] propsMild ppThree satMild evalMild
    (by constructor <;> decide) (by decide) (by decide) 0 (by decide)

theorem satFromPc_bounds (props : Props) (phase cell : Nat) (t : ℚ)
    (inc : Bool)
    (h : props.satRangeMin cell phase ≤ props.satRangeMax cell phase) :
    props.satRangeMin cell phase ≤ satFromPc props phase cell t inc ∧
      satFromPc props phase cell t inc ≤ props.satRangeMax cell phase := by
  unfold satFromPc
  exact ⟨le_max_left _ _, max_le h (min_le_left _ _)⟩

theorem satFromSumOfPcs_bounds (props : Props) (phase1 phase2 cell : Nat)
    (t : ℚ)
    (h : props.satRangeMin cell phase1 ≤ props.satRangeMax cell phase1) :
    props.satRangeMin cell phase1 ≤ satFromSumOfPcs props phase1 phase2 cell t ∧
      satFromSumOfPcs props phase1 phase2 cell t ≤
        props.satRangeMax cell phase1 := by
  unfold satFromSumOfPcs
  exact ⟨le_max_left _ _, max_le h (min_le_left _ _)⟩

theorem cellSats_water_nonoverlap (reg : EquilReg) (props : Props)
    (pp : PhaseTable) (cell i : Nat)
    (hov : overlapFires reg props pp cell i = false) :
    (cellSats reg props pp cell i).1 = swInverted reg props pp cell i := by
  rw [cellSats_nonoverlap reg props pp cell i hov]

theorem cellSats_gas_nonoverlap (reg : EquilReg) (props : Props)
    (pp : PhaseTable) (cell i : Nat)
    (hov : overlapFires reg props pp cell i = false) :
    (cellSats reg props pp cell i).2.1 = sgInverted reg props pp cell i := by
  rw [cellSats_nonoverlap reg props pp cell i hov]

/-- C3, amended: the saturations produced by direct capillary inversion stay
within the satRange bounds of their phase (given a nonempty range): the
water saturation always, since both satFromPc and the overlap-branch
satFromSumOfPcs clamp to the water range, and the gas saturation whenever
the overlap correction does not fire.  The original claim fails for the
closure oil saturation and for the overlap-branch gas saturation one minus
water, which are not clamped: see the counterexample. -/
theorem c3_inverted_saturations_within_range (reg : EquilReg)
    (cells : List Nat) (props : Props) (pp out : PhaseTable)
    (h : phaseSaturations reg cells props pp = Except.ok out)
    (hs : SatShape reg cells pp) (j : Nat) (hj : j < cells.length)
    (hwr : waterActive reg = true →
      props.satRangeMin (cells.getD j 0) (waterpos reg) ≤
        props.satRangeMax (cells.getD j 0) (waterpos reg))
    (hgr : gasActive reg = true →
      props.satRangeMin (cells.getD j 0) (gaspos reg) ≤
        props.satRangeMax (cells.getD j 0) (gaspos reg)) :
    (waterActive reg = true →
      props.satRangeMin (cells.getD j 0) (waterpos reg) ≤
          mval out (waterpos reg) j ∧
        mval out (waterpos reg) j ≤
          props.satRangeMax (cells.getD j 0) (waterpos reg)) ∧
      (gasActive reg = true →
        overlapFires reg props pp (cells.getD j 0) j = false →
        props.satRangeMin (cells.getD j 0) (gaspos reg) ≤
            mval out (gaspos reg) j ∧
          mval out (gaspos reg) j ≤
            props.satRangeMax (cells.getD j 0) (gaspos reg)) := by
  obtain ⟨-, hw, hg⟩ := phaseSaturations_reads reg cells props pp out h hs j hj
  constructor
  · intro hwa
    by_cases hov : overlapFires reg props pp (cells.getD j 0) j = true
    · have hwv : mval out (waterpos reg) j =
          satFromSumOfPcs props (waterpos reg) (gaspos reg) (cells.getD j 0)
            (mval pp (gaspos reg) j - mval pp (waterpos reg) j) := by
        rw [hw hwa, cellSats_overlap reg props pp (cells.getD j 0) j hov]
        rfl
      rw [hwv]
      exact satFromSumOfPcs_bounds props (waterpos reg) (gaspos reg)
        (cells.getD j 0) _ (hwr hwa)
    · have hovf : overlapFires reg props pp (cells.getD j 0) j = false := by
        simpa using hov
      have hwv : mval out (waterpos reg) j =
          swInverted reg props pp (cells.getD j 0) j := by
        rw [hw hwa, cellSats_water_nonoverlap reg props pp (cells.getD j 0) j
          hovf]
      rw [hwv, swInverted, if_pos hwa]
      exact satFromPc_bounds props (waterpos reg) (cells.getD j 0) _ false
        (hwr hwa)
  · intro hga hovf
    have hgv : mval out (gaspos reg) j =
        sgInverted reg props pp (cells.getD j 0) j := by
      rw [hg hga, cellSats_gas_nonoverlap reg props pp (cells.getD j 0) j hovf]
    rw [hgv, sgInverted, if_pos hga]
    exact satFromPc_bounds props (gaspos reg) (cells.getD j 0) _ true (hgr hga)

/-- Counterexample for C3: in the overlap one-cell scenario the accepted
run stores oil saturation zero, strictly below the lower oil saturation
bound three tenths that satRange reports for that cell, so the claim that
every phase saturation of every cell lies within its satRange bounds is
false on the code. -/
theorem c3_counterexample :
    phaseSaturations regAll [0] propsHot ppThree = Except.ok satHot ∧
      mval satHot (oilpos regAll) 0 <
        propsHot.satRangeMin 0 (oilpos regAll) := by
  refine ⟨evalHot, ?_⟩
  norm_num [satHot, mval, propsHot, oilpos, regAll, puAll,
    EquilReg.phaseUsage, List.getD]

/-- Witness for the amended C3: the mild three-phase one-cell scenario. -/
theorem c3_witness :
    (waterActive regAll = true →
      propsMild.satRangeMin (([0] : List Nat).getD 0 0) (waterpos regAll) ≤
          mval satMild (waterpos regAll) 0 ∧
        mval satMild (waterpos regAll) 0 ≤
          propsMild.satRangeMax (([0] : List Nat).getD 0 0) (waterpos regAll)) ∧
      (gasActive regAll = true →
        overlapFires regAll propsMild ppThree (([0] : List Nat).getD 0 0) 0 =
          false →
        propsMild.satRangeMin (([0] : List Nat).getD 0 0) (gaspos regAll) ≤
            mval satMild (gaspos regAll) 0 ∧
          mval satMild (gaspos regAll) 0 ≤
            propsMild.satRangeMax (([0] : List Nat).getD 0 0) (gaspos regAll)) :=
  c3_inverted_saturations_within_range regAll [0] propsMild ppThree satMild
    evalMild (by constructor <;> decide) 0 (by decide) (by decide) (by decide)

/-- C8: without an EQLNUM field, equilnum returns a vector with one entry
per grid cell, every entry zero, so every cell lands in region zero; with
the field present, the array of the deck is returned unchanged. -/
theorem c8_equilnum_default (deck : EclipseGridParser)
    (G : UnstructuredGrid) :
    (deck.eqlnumField = none →
      equilnum deck G = List.replicate G.number_of_cells 0 ∧
        (equilnum deck G).length = G.number_of_cells ∧
        ∀ i, i < (equilnum deck G).length → (equilnum deck G).getD i 1 = 0) ∧
      ∀ v, deck.eqlnumField = some v → equilnum deck G = v := by
  constructor
  · intro hnone
    have hval : equilnum deck G = List.replicate G.number_of_cells 0 := by
      unfold equilnum
      rw [hnone]
    refine ⟨hval, by rw [hval]; simp, ?_⟩
    intro i hi
    rw [hval] at hi ⊢
    simp only [List.length_replicate] at hi
    simp [List.getD, List.getElem?_replicate, hi]
  · intro v hsome
    unfold equilnum
    rw [hsome]

/-- Witness for C8: a three-cell grid without EQLNUM and a deck carrying an
explicit assignment. -/
theorem c8_witness :
    equilnum (EclipseGridParser.mk none) (UnstructuredGrid.mk 3) =
        List.replicate 3 0 ∧
      equilnum (EclipseGridParser.mk (some [5, 7]))
        (UnstructuredGrid.mk 3) = [5, 7] :=
  ⟨((c8_equilnum_default (EclipseGridParser.mk none)
      (UnstructuredGrid.mk 3)).1 rfl).1,
    (c8_equilnum_default (EclipseGridParser.mk (some [5, 7]))
      (UnstructuredGrid.mk 3)).2 [5, 7] rfl⟩

/-- C10: the velocity formulation is one value of a closed enumeration,
validated once at construction: the constructor check fails exactly when
the tag is the catch-all (not one of the water, non-wetting and total
choices) or when compressibility is combined with the total-velocity
formulation; any valid run therefore carries one of the three enumerated
tags, and the later store dispatch of calculateVelocity selects a velocity
for each of them without any further formulation check or throw. -/
theorem c10_velocity_formulation_validation (c : Bool)
    (v : VelocityFormulation) :
    (fvVelocity2PConstructorCheck c v = Except.ok () ↔
      (v ≠ VelocityFormulation.other ∧
        ¬(c = true ∧ v = VelocityFormulation.vt))) ∧
      (fvVelocity2PConstructorCheck c v = Except.ok () →
        v = VelocityFormulation.vw ∨ v = VelocityFormulation.vn ∨
          v = VelocityFormulation.vt) ∧
      ∀ w nw : ℚ, ∀ store : ℚ × ℚ,
        storeVelocities v w nw store = (w, nw) ∨
          storeVelocities v w nw store = (nw, w) ∨
          storeVelocities v w nw store = (w + nw, store.2) ∨
          storeVelocities v w nw store = store := by
  refine ⟨?_, ?_, ?_⟩
  · cases c <;> cases v <;>
      simp [fvVelocity2PConstructorCheck]
  · intro hok
    cases v
    · exact Or.inl rfl
    · exact Or.inr (Or.inl rfl)
    · exact Or.inr (Or.inr rfl)
    · rw [fvVelocity2PConstructorCheck] at hok
      cases c <;> simp at hok
  · intro w nw store
    cases v <;> simp [storeVelocities]

theorem length_scatterRow (cells : List Nat) :
    ∀ (row : List ℚ) (vals : List ℚ),
      (scatterRow row cells vals).length = row.length := by
  induction cells with
  | nil =>
    intro row vals
    cases vals <;> rfl
  | cons x cs ih =>
    intro row vals
    cases vals with
    | nil => rfl
    | cons v vs =>
      rw [scatterRow, ih, List.length_set]

theorem getD_scatterRow_not_mem (cells : List Nat) :
    ∀ (row : List ℚ) (vals : List ℚ) (c : Nat), c ∉ cells →
      (scatterRow row cells vals).getD c 0 = row.getD c 0 := by
  induction cells with
  | nil =>
    intro row vals c _
    cases vals <;> rfl
  | cons x cs ih =>
    intro row vals c hc
    cases vals with
    | nil => rfl
    | cons v vs =>
      have hx : x ≠ c := fun h => hc (h ▸ List.mem_cons_self x cs)
      have hcs : c ∉ cs := fun h => hc (List.mem_cons_of_mem x h)
      rw [scatterRow, ih (row.set x v) vs c hcs, getD_set, if_neg]
      rintro ⟨h1, -⟩
      exact hx h1

theorem getD_scatterRow_at (cells : List Nat) :
    ∀ (row : List ℚ) (vals : List ℚ) (i : Nat), cells.Nodup →
      i < cells.length → i < vals.length → cells.getD i 0 < row.length →
      (scatterRow row cells vals).getD (cells.getD i 0) 0 = vals.getD i 0 := by
  induction cells with
  | nil =>
    intro row vals i _ hi
    exact absurd hi (by simp)
  | cons x cs ih =>
    intro row vals i hnd hi hiv hlt
    cases vals with
    | nil => exact absurd hiv (by simp)
    | cons v vs =>
      obtain ⟨hx, hcs⟩ := List.nodup_cons.mp hnd
      cases i with
      | zero =>
        simp only [List.getD_cons_zero] at hlt ⊢
        rw [scatterRow, getD_scatterRow_not_mem cs (row.set x v) vs x hx,
          getD_set, if_pos ⟨rfl, hlt⟩]
      | succ k =>
        simp only [List.getD_cons_succ] at hlt ⊢
        rw [scatterRow]
        exact ih (row.set x v) vs k hcs (by simpa using hi)
          (by simpa using hiv) (by rw [List.length_set]; exact hlt)

theorem length_scatterAll (d : PhaseTable) (cells : List Nat)
    (res : PhaseTable) : (scatterAll d cells res).length = d.length := by
  simp [scatterAll]

theorem getD_scatterAll_lt (d : PhaseTable) (cells : List Nat)
    (res : PhaseTable) (p : Nat) (hp : p < d.length) :
    (scatterAll d cells res).getD p [] =
      scatterRow (d.getD p []) cells (res.getD p []) := by
  unfold scatterAll
  have h2 : p < (d.mapIdx fun p row =>
      scatterRow row cells (res.getD p [])).length := by
    simpa using hp
  rw [List.getD_eq_getElem _ _ h2]
  simp only [List.getElem_mapIdx]
  rw [List.getD_eq_getElem _ _ hp]

theorem getD_scatterAll_ge (d : PhaseTable) (cells : List Nat)
    (res : PhaseTable) (p : Nat) (hp : ¬p < d.length) :
    (scatterAll d cells res).getD p [] = [] := by
  unfold scatterAll
  rw [List.getD_eq_default]
  simpa using Nat.le_of_not_lt hp

theorem rowLen_scatterAll (d : PhaseTable) (cells : List Nat)
    (res : PhaseTable) (p : Nat) :
    rowLen (scatterAll d cells res) p = rowLen d p := by
  by_cases hp : p < d.length
  · unfold rowLen
    rw [getD_scatterAll_lt d cells res p hp, length_scatterRow]
  · unfold rowLen
    rw [getD_scatterAll_ge d cells res p hp,
      List.getD_eq_default _ _ (Nat.le_of_not_lt hp)]

theorem mval_scatterAll_not_mem (d : PhaseTable) (cells : List Nat)
    (res : PhaseTable) (p c : Nat) (hc : c ∉ cells) :
    mval (scatterAll d cells res) p c = mval d p c := by
  by_cases hp : p < d.length
  · unfold mval
    rw [getD_scatterAll_lt d cells res p hp,
      getD_scatterRow_not_mem cells _ _ c hc]
  · unfold mval
    rw [getD_scatterAll_ge d cells res p hp,
      List.getD_eq_default _ _ (Nat.le_of_not_lt hp)]

theorem mval_scatterAll_at (d : PhaseTable) (cells : List Nat)
    (res : PhaseTable) (p i : Nat) (hp : p < d.length)
    (hnd : cells.Nodup) (hi : i < cells.length) (hiv : i < rowLen res p)
    (hlt : cells.getD i 0 < rowLen d p) :
    mval (scatterAll d cells res) p (cells.getD i 0) = mval res p i := by
  unfold mval
  rw [getD_scatterAll_lt d cells res p hp]
  exact getD_scatterRow_at cells (d.getD p []) (res.getD p []) i hnd hi hiv hlt

theorem length_foldScatter (cellsOf : Nat → List Nat)
    (resOf : Nat → PhaseTable) (regs : List Nat) :
    ∀ d : PhaseTable, (foldScatter cellsOf resOf regs d).length = d.length := by
  induction regs with
  | nil => intro d; rfl
  | cons r rs ih =>
    intro d
    rw [foldScatter, ih, length_scatterAll]

theorem rowLen_foldScatter (cellsOf : Nat → List Nat)
    (resOf : Nat → PhaseTable) (regs : List Nat) :
    ∀ (d : PhaseTable) (p : Nat),
      rowLen (foldScatter cellsOf resOf regs d) p = rowLen d p := by
  induction regs with
  | nil => intro d p; rfl
  | cons r rs ih =>
    intro d p
    rw [foldScatter, ih, rowLen_scatterAll]

theorem mval_foldScatter_not_mem (cellsOf : Nat → List Nat)
    (resOf : Nat → PhaseTable) (regs : List Nat) :
    ∀ (d : PhaseTable) (p c : Nat), (∀ r ∈ regs, c ∉ cellsOf r) →
      mval (foldScatter cellsOf resOf regs d) p c = mval d p c := by
  induction regs with
  | nil => intro d p c _; rfl
  | cons r rs ih =>
    intro d p c hc
    rw [foldScatter, ih _ p c (fun r2 h2 => hc r2 (List.mem_cons_of_mem r h2))]
    exact mval_scatterAll_not_mem d (cellsOf r) (resOf r) p c
      (hc r (List.mem_cons_self r rs))

theorem mval_foldScatter_at (cellsOf : Nat → List Nat)
    (resOf : Nat → PhaseTable) (regs : List Nat) :
    ∀ (d : PhaseTable) (r p i : Nat),
      regs.Nodup → r ∈ regs →
      (∀ r2 ∈ regs, r2 ≠ r → (cellsOf r).getD i 0 ∉ cellsOf r2) →
      (cellsOf r).Nodup →
      i < (cellsOf r).length →
      i < rowLen (resOf r) p →
      p < d.length →
      (cellsOf r).getD i 0 < rowLen d p →
      mval (foldScatter cellsOf resOf regs d) p ((cellsOf r).getD i 0) =
        mval (resOf r) p i := by
  induction regs with
  | nil =>
    intro d r p i _ hr
    exact absurd hr (by simp)
  | cons r0 rs ih =>
    intro d r p i hnd hr hdisj hcnd hi hiv hp hlt
    rw [foldScatter]
    rcases List.mem_cons.mp hr with rfl | hrs
    · rw [mval_foldScatter_not_mem cellsOf resOf rs _ p _ ?notmem]
      · exact mval_scatterAll_at d (cellsOf r) (resOf r) p i hp hcnd hi hiv hlt
      case notmem =>
        intro r2 h2
        refine hdisj r2 (List.mem_cons_of_mem r h2) ?_
        intro heq
        exact (List.nodup_cons.mp hnd).1 (heq ▸ h2)
    · exact ih (scatterAll d (cellsOf r0) (resOf r0)) r p i
        (List.nodup_cons.mp hnd).2 hrs
        (fun r2 h2 hne2 => hdisj r2 (List.mem_cons_of_mem r0 h2) hne2)
        hcnd hi hiv
        (by rw [length_scatterAll]; exact hp)
        (by rw [rowLen_scatterAll]; exact hlt)

/-- The per-region saturation result inside calcSat: the value that
phaseSaturations returns for region r when its preconditions hold. -/
def regionSat (rmap : RegionMapping) (recs : List EquilRecord)
    (pu : PhaseUsage) (props : Props) (pressFn : Nat → PhaseTable)
    (r : Nat) : PhaseTable :=
  satLoop (regOf recs pu r) props (pressFn r) (rmap.cells r) 0 (pressFn r)

theorem calcSatLoop_ok_inv (rmap : RegionMapping) (recs : List EquilRecord)
    (pu : PhaseUsage) (props : Props) (pressFn : Nat → PhaseTable)
    (regs : List Nat) :
    ∀ pp sat pp2 sat2 : PhaseTable,
      calcSatLoop rmap recs pu props pressFn regs pp sat =
        Except.ok (pp2, sat2) →
      pp2 = foldScatter rmap.cells pressFn regs pp ∧
        sat2 = foldScatter rmap.cells
          (regionSat rmap recs pu props pressFn) regs sat := by
  induction regs with
  | nil =>
    intro pp sat pp2 sat2 h
    simp only [calcSatLoop] at h
    cases h
    exact ⟨rfl, rfl⟩
  | cons r rs ih =>
    intro pp sat pp2 sat2 h
    simp only [calcSatLoop] at h
    rcases heq : phaseSaturations (regOf recs pu r) (rmap.cells r) props
        (pressFn r) with e | satr
    · rw [heq] at h
      cases h
    · rw [heq] at h
      obtain ⟨h1, h2⟩ := ih _ _ _ _ h
      have hval := phaseSaturations_ok_val _ _ _ _ _ heq
      constructor
      · rw [h1, foldScatter]
      · rw [h2, foldScatter, hval]
        rfl

theorem getD_replicate {α : Type} (n : Nat) (x d : α) (i : Nat) :
    (List.replicate n x).getD i d = if i < n then x else d := by
  induction n generalizing i with
  | zero => simp
  | succ m ih =>
    cases i with
    | zero => simp [List.replicate]
    | succ k =>
      simp only [List.replicate, List.getD_cons_succ, ih,
        Nat.succ_lt_succ_iff]

theorem mval_zeroTable (np ncells p c : Nat) :
    mval (zeroTable np ncells) p c = 0 := by
  unfold mval zeroTable
  rw [getD_replicate]
  split
  · rw [getD_replicate]
    split <;> rfl
  · rfl

theorem rowLen_zeroTable (np ncells p : Nat) (hp : p < np) :
    rowLen (zeroTable np ncells) p = ncells := by
  unfold rowLen zeroTable
  rw [getD_replicate, if_pos hp, List.length_replicate]

theorem length_zeroTable (np ncells : Nat) :
    (zeroTable np ncells).length = np := by
  unfold zeroTable
  exact List.length_replicate np _

theorem mval_ge (m : PhaseTable) (q c : Nat) (h : m.length ≤ q) :
    mval m q c = 0 := by
  unfold mval
  rw [List.getD_eq_default _ _ h]
  rfl

/-- C6: after construction, assuming the region mapping partitions the
cells, every global cell entry of press() and saturation() equals the
region-local value that phasePressures and phaseSaturations produce for the
region owning that cell, at its local index; the scatter of one region
never overwrites a cell of another region, and the second pressure scatter
inside calcSat leaves pp_ with exactly the values calcPressII wrote. -/
theorem c6_computer_scatter (rmap : RegionMapping) (recs : List EquilRecord)
    (pu : PhaseUsage) (props : Props) (pressFn : Nat → PhaseTable)
    (np ncells : Nat) (pp sat : PhaseTable)
    (hres : phasePressureSaturationComputer rmap recs pu props pressFn
      np ncells = Except.ok (pp, sat))
    (hdisj : ∀ r1 r2, r1 < rmap.numRegions → r2 < rmap.numRegions →
      r1 ≠ r2 → ∀ c, c ∈ rmap.cells r1 → c ∉ rmap.cells r2)
    (hnd : ∀ r, r < rmap.numRegions → (rmap.cells r).Nodup)
    (hbound : ∀ r, r < rmap.numRegions → ∀ c ∈ rmap.cells r, c < ncells)
    (hshape : ∀ r, r < rmap.numRegions → (pressFn r).length = np ∧
      ∀ p, p < np → rowLen (pressFn r) p = (rmap.cells r).length)
    (r : Nat) (hr : r < rmap.numRegions)
    (i : Nat) (hi : i < (rmap.cells r).length)
    (p : Nat) (hp : p < np)
    (satr : PhaseTable)
    (hsatr : phaseSaturations (regOf recs pu r) (rmap.cells r) props
      (pressFn r) = Except.ok satr) :
    mval pp p ((rmap.cells r).getD i 0) = mval (pressFn r) p i ∧
      mval sat p ((rmap.cells r).getD i 0) = mval satr p i ∧
      ∀ q c, mval pp q c =
        mval (calcPressII rmap pressFn (zeroTable np ncells)) q c := by
  have hres2 : calcSatLoop rmap recs pu props pressFn
      (List.range rmap.numRegions)
      (calcPressII rmap pressFn (zeroTable np ncells))
      (zeroTable np ncells) = Except.ok (pp, sat) := hres
  obtain ⟨hpp, hsat⟩ := calcSatLoop_ok_inv rmap recs pu props pressFn
    (List.range rmap.numRegions) _ _ _ _ hres2
  have hmem : (rmap.cells r).getD i 0 ∈ rmap.cells r := by
    rw [List.getD_eq_getElem _ _ hi]
    exact List.getElem_mem hi
  have hdisj2 : ∀ r2 ∈ List.range rmap.numRegions, r2 ≠ r →
      (rmap.cells r).getD i 0 ∉ rmap.cells r2 := by
    intro r2 h2 hne
    exact hdisj r r2 hr (List.mem_range.mp h2) (fun he => hne he.symm) _ hmem
  have hrin : r ∈ List.range rmap.numRegions := List.mem_range.mpr hr
  have hndr : (List.range rmap.numRegions).Nodup := List.nodup_range _
  have hclt : (rmap.cells r).getD i 0 < ncells := hbound r hr _ hmem
  have hlen0 : (calcPressII rmap pressFn (zeroTable np ncells)).length = np := by
    unfold calcPressII
    rw [length_foldScatter, length_zeroTable]
  have hrow0 : ∀ q, q < np →
      rowLen (calcPressII rmap pressFn (zeroTable np ncells)) q = ncells := by
    intro q hq
    unfold calcPressII
    rw [rowLen_foldScatter, rowLen_zeroTable np ncells q hq]
  have h1 : mval pp p ((rmap.cells r).getD i 0) = mval (pressFn r) p i := by
    rw [hpp]
    exact mval_foldScatter_at rmap.cells pressFn (List.range rmap.numRegions)
      _ r p i hndr hrin hdisj2 (hnd r hr) hi
      (by rw [(hshape r hr).2 p hp]; exact hi)
      (by rw [hlen0]; exact hp)
      (by rw [hrow0 p hp]; exact hclt)
  have hsatval := phaseSaturations_ok_val _ _ _ _ _ hsatr
  have h2 : mval sat p ((rmap.cells r).getD i 0) = mval satr p i := by
    rw [hsat, hsatval]
    exact mval_foldScatter_at rmap.cells
      (regionSat rmap recs pu props pressFn) (List.range rmap.numRegions)
      _ r p i hndr hrin hdisj2 (hnd r hr) hi
      (by unfold regionSat
          rw [rowLen_satLoop, (hshape r hr).2 p hp]
          exact hi)
      (by rw [length_zeroTable]; exact hp)
      (by rw [rowLen_zeroTable np ncells p hp]; exact hclt)
  refine ⟨h1, h2, ?_⟩
  intro q c
  rw [hpp]
  by_cases hq : q < np
  · by_cases hcreg : ∃ r2, r2 < rmap.numRegions ∧ c ∈ rmap.cells r2
    · obtain ⟨r2, hr2, hc2⟩ := hcreg
      obtain ⟨i2, hi2, hci2⟩ := List.mem_iff_getElem.mp hc2
      have hci2d : (rmap.cells r2).getD i2 0 = c := by
        rw [List.getD_eq_getElem _ _ hi2]
        exact hci2
      rw [← hci2d]
      have hmem2 : (rmap.cells r2).getD i2 0 ∈ rmap.cells r2 := by
        rw [List.getD_eq_getElem _ _ hi2]
        exact List.getElem_mem hi2
      have hdisj3 : ∀ r3 ∈ List.range rmap.numRegions, r3 ≠ r2 →
          (rmap.cells r2).getD i2 0 ∉ rmap.cells r3 := by
        intro r3 h3 hne
        exact hdisj r2 r3 hr2 (List.mem_range.mp h3)
          (fun he => hne he.symm) _ hmem2
      have hclt2 : (rmap.cells r2).getD i2 0 < ncells := hbound r2 hr2 _ hmem2
      rw [mval_foldScatter_at rmap.cells pressFn (List.range rmap.numRegions)
        _ r2 q i2 hndr (List.mem_range.mpr hr2) hdisj3 (hnd r2 hr2) hi2
        (by rw [(hshape r2 hr2).2 q hq]; exact hi2)
        (by rw [hlen0]; exact hq)
        (by rw [hrow0 q hq]; exact hclt2)]
      have hcp : calcPressII rmap pressFn (zeroTable np ncells) =
          foldScatter rmap.cells pressFn (List.range rmap.numRegions)
            (zeroTable np ncells) := rfl
      rw [hcp, mval_foldScatter_at rmap.cells pressFn
        (List.range rmap.numRegions) _ r2 q i2 hndr (List.mem_range.mpr hr2)
        hdisj3 (hnd r2 hr2) hi2
        (by rw [(hshape r2 hr2).2 q hq]; exact hi2)
        (by rw [length_zeroTable]; exact hq)
        (by rw [rowLen_zeroTable np ncells q hq]; exact hclt2)]
    · push_neg at hcreg
      rw [mval_foldScatter_not_mem rmap.cells pressFn
        (List.range rmap.numRegions) _ q c
        (fun r2 h2 => hcreg r2 (List.mem_range.mp h2))]
  · have hL1 : (foldScatter rmap.cells pressFn (List.range rmap.numRegions)
        (calcPressII rmap pressFn (zeroTable np ncells))).length = np := by
      rw [length_foldScatter, hlen0]
    rw [mval_ge _ q c (by rw [hL1]; exact Nat.le_of_not_lt hq),
      mval_ge _ q c (by rw [hlen0]; exact Nat.le_of_not_lt hq)]

/-- A one-region mapping over a one-cell grid. -/
def rmapOne : RegionMapping := RegionMapping.mk 1 (fun _ => [0])

/-- A constant per-region pressure result for the one-cell scenario. -/
def pressFnOne : Nat → PhaseTable := fun _ => ppThree

theorem evalComputer :
    phasePressureSaturationComputer rmapOne [recMid] puAll propsMild
      pressFnOne 3 1 = Except.ok ([[0], [0], [0]], satMild) := by
  norm_num [phasePressureSaturationComputer, calcSat, calcSatLoop,
    calcPressII, foldScatter, scatterAll, scatterRow, zeroTable, regOf,
    defaultEquilRecord, rmapOne, pressFnOne, List.range_succ,
    List.replicate_succ, List.mapIdx_cons, List.mapIdx_nil,
    phaseSaturations, satLoop,
    satCellStep, swInverted, sgInverted, swCombined, overlapFires, satFromPc,
    satFromSumOfPcs, mval, mset, rowLen, waterActive, gasActive, oilpos,
    waterpos, gaspos, EquilReg.datum, EquilReg.zwoc, EquilReg.zgoc,
    EquilReg.phaseUsage, puAll, recMid, propsMild, ppThree, satMild,
    List.getD]

theorem evalRegSat :
    phaseSaturations (regOf [recMid] puAll 0) ([0] : List Nat) propsMild
      (pressFnOne 0) = Except.ok satMild := by
  have h : regOf [recMid] puAll 0 = regAll := rfl
  rw [h]
  exact evalMild

/-- Witness for C6: the one-region, one-cell, three-phase driver run. -/
theorem c6_witness :
    mval [[0], [0], [0]] 1 ((rmapOne.cells 0).getD 0 0) =
        mval (pressFnOne 0) 1 0 ∧
      mval satMild 1 ((rmapOne.cells 0).getD 0 0) = mval satMild 1 0 ∧
      ∀ q c, mval [[0], [0], [0]] q c =
        mval (calcPressII rmapOne pressFnOne (zeroTable 3 1)) q c :=
  c6_computer_scatter rmapOne [recMid] puAll propsMild pressFnOne 3 1
    [[0], [0], [0]] satMild evalComputer
    (fun r1 r2 h1 h2 hne => by
      simp only [rmapOne] at h1 h2
      exact absurd (by omega) hne)
    (fun r _ => List.nodup_singleton 0)
    (fun r _ c hc => by
      simp only [rmapOne, List.mem_singleton] at hc
      omega)
    (fun r _ => ⟨rfl, fun p hp => by interval_cases p <;> rfl⟩)
    0 (by decide) 0 (by decide) 1 (by decide) satMild evalRegSat

/-- Witness for C4: the valid three-phase region passes both checks. -/
theorem c4_witness :
    (∃ out, phaseSaturations regAll [0] propsMild ppThree = Except.ok out) ↔
      (regAll.zgoc ≤ regAll.datum ∧ regAll.datum ≤ regAll.zwoc ∧
        regAll.phaseUsage.phase_used BlackoilPhase.Liquid = true) :=
  c4_precondition_checks regAll [0] propsMild ppThree

/-- Witness for C10: the incompressible water-velocity combination. -/
theorem c10_witness :
    (fvVelocity2PConstructorCheck false VelocityFormulation.vw =
        Except.ok () ↔
      (VelocityFormulation.vw ≠ VelocityFormulation.other ∧
        ¬(false = true ∧ VelocityFormulation.vw = VelocityFormulation.vt))) ∧
      (fvVelocity2PConstructorCheck false VelocityFormulation.vw =
          Except.ok () →
        VelocityFormulation.vw = VelocityFormulation.vw ∨
          VelocityFormulation.vw = VelocityFormulation.vn ∨
          VelocityFormulation.vw = VelocityFormulation.vt) ∧
      ∀ w nw : ℚ, ∀ store : ℚ × ℚ,
        storeVelocities VelocityFormulation.vw w nw store = (w, nw) ∨
          storeVelocities VelocityFormulation.vw w nw store = (nw, w) ∨
          storeVelocities VelocityFormulation.vw w nw store =
            (w + nw, store.2) ∨
          storeVelocities VelocityFormulation.vw w nw store = store :=
  c10_velocity_formulation_validation false VelocityFormulation.vw
